import Mathlib

/-
Verification of the logger call-site rewriter (fix_logger.py).

The rewriter is a pure text-to-text transform: it locates call-sites of the
shape recv.logger.<Severity>, a literal message and a literal field-mapping
argument, with a regular expression, parses the mapping body into
(key, value) pairs line by
line, infers a format verb per value, and substitutes a rebuilt positional
call.  Text is modelled as List Char; every definition below mirrors the
Python source line by line.
-/

namespace FixLogger

/-- Whitespace set of Python str.strip() and the regex class backslash-s,
restricted to ASCII: space, tab, newline, carriage return, vertical tab,
form feed. -/
def isSpace (c : Char) : Bool :=
  c == ' ' || c == '\t' || c == '\n' || c == '\r' || c == '\x0b' || c == '\x0c'

/-- Word characters of the regex class backslash-w (ASCII part):
letters, digits and underscore. -/
def isWordChar (c : Char) : Bool :=
  c.isAlphanum || c == '_'

/-- Auxiliary splitter: returns the chunk before the first separator and the
list of remaining chunks, so that Python s.split(sep) is the head consed on
the tail. -/
def splitOnAux (sep : Char) : List Char → List Char × List (List Char)
  | [] => ([], [])
  | c :: rest =>
    if c = sep then ([], (splitOnAux sep rest).1 :: (splitOnAux sep rest).2)
    else (c :: (splitOnAux sep rest).1, (splitOnAux sep rest).2)

/-- Python s.split(sep): list of chunks between separators, empties kept. -/
def splitOn (sep : Char) (s : List Char) : List (List Char) :=
  (splitOnAux sep s).1 :: (splitOnAux sep s).2

/-- Drop characters satisfying p from both ends (Python str.strip with a
character set). -/
def dropAround (p : Char → Bool) (s : List Char) : List Char :=
  ((s.dropWhile p).reverse.dropWhile p).reverse

/-- Python str.strip() with no arguments: whitespace off both ends. -/
def strip (s : List Char) : List Char :=
  dropAround isSpace s

/-- Python str.strip with a double-quote argument: quote characters off both
ends. -/
def stripQuotes (s : List Char) : List Char :=
  dropAround (fun c => c == '\"') s

/-- Python str.rstrip with a comma argument: all trailing commas removed. -/
def rstripComma (s : List Char) : List Char :=
  (s.reverse.dropWhile (fun c => c == ',')).reverse

/-- Python line.startswith with a double-slash argument. -/
def startsWithSlashes : List Char → Bool
  | '/' :: '/' :: _ => true
  | _ => false

/-- Does the first list occur at the head of the second one. -/
def leadsWith : List Char → List Char → Bool
  | [], _ => true
  | _ :: _, [] => false
  | a :: as, b :: bs => a == b && leadsWith as bs

/-- Python substring containment, needle in haystack. -/
def hasSub (needle : List Char) : List Char → Bool
  | [] => needle.isEmpty
  | hay@(_ :: rest) => leadsWith needle hay || hasSub needle rest

/-- Python str.isdigit restricted to ASCII: nonempty and every character a
decimal digit. -/
def pyIsDigit (s : List Char) : Bool :=
  !s.isEmpty && s.all Char.isDigit

/-- Literal piece of the call pattern between receiver and severity. -/
def dotLoggerDot : List Char := ".logger.".data

/-- Literal opening of the message argument: parenthesis and quote. -/
def openQuote : List Char := "(\"".data

/-- Literal closing of the message argument: quote and comma. -/
def quoteComma : List Char := "\",".data

/-- Literal map type annotation of the pattern (braces escaped). -/
def mapLit : List Char := "map[string]interface\x7b\x7d".data

/-- Severity names targeted by the four rewrite stages. -/
def sevInfo : List Char := "Info".data

def sevDebug : List Char := "Debug".data

def sevWarning : List Char := "Warning".data

def sevError : List Char := "Error".data

/-- One match of the call pattern: the whole matched span (group 0, which
coincides with group 1), the message text (group 2) and the raw mapping body
(group 3). -/
structure CallMatch where
  matched : List Char
  message : List Char
  body : List Char

/-- Consume an exact literal from the head of the text, returning the rest,
or fail. -/
def eatLit : List Char → List Char → Option (List Char)
  | [], s => some s
  | _ :: _, [] => none
  | a :: as, b :: bs => if a = b then eatLit as bs else none

/-- Try the call pattern at the head of s for one severity.  The regex
(backslash-w+ dot logger dot Sev open-paren quote [^quote]+ quote comma
backslash-s* map-type backslash-s* open-brace [^close-brace]+ close-brace)
is deterministic: each greedy piece is followed by a character its class
excludes, so plain maximal munch is its exact semantics. -/
def tryMatch (sev : List Char) (s : List Char) : Option (CallMatch × List Char) :=
  let recv := s.takeWhile isWordChar
  if recv.isEmpty then none
  else
    match eatLit (dotLoggerDot ++ sev ++ openQuote) (s.drop recv.length) with
    | none => none
    | some r2 =>
      let msg := r2.takeWhile (fun c => !(c == '\"'))
      if msg.isEmpty then none
      else
        match eatLit quoteComma (r2.drop msg.length) with
        | none => none
        | some r3 =>
          let w1 := r3.takeWhile isSpace
          match eatLit mapLit (r3.drop w1.length) with
          | none => none
          | some r4 =>
            let w2 := r4.takeWhile isSpace
            match r4.drop w2.length with
            | '\x7b' :: r5 =>
              let body := r5.takeWhile (fun c => !(c == '\x7d'))
              if body.isEmpty then none
              else
                match r5.drop body.length with
                | '\x7d' :: r6 =>
                  some (⟨recv ++ dotLoggerDot ++ sev ++ openQuote ++ msg ++
                          quoteComma ++ w1 ++ mapLit ++ w2 ++ ['\x7b'] ++
                          body ++ ['\x7d'], msg, body⟩, r6)
                | _ => none
            | _ => none

/-- Fixed allow-list of known value names special-cased by the source's verb
inference (line 41 of fix_logger.py). -/
def allowList : List (List Char) :=
  [ "original.ID".data, "new.ID".data, "mergedStyle.ID".data, "styleID".data,
    "conflict.ID".data, "operation.ID".data, "session.ID".data, "userID".data,
    "sessionID".data, "controlID".data, "fileID".data, "linkID".data,
    "containerID".data, "tab.ID".data, "group.ID".data, "control.ID".data,
    "comment.ID".data, "image.ID".data, "table.ID".data, "paragraph.ID".data,
    "protectionType".data, "validationType".data, "format".data,
    "subject".data, "keywords".data, "author".data, "title".data,
    "filePath".data, "outputPath".data ]

/-- Inner allow-list checked inside the special case (line 51). -/
def innerNames : List (List Char) :=
  [ "title".data, "author".data, "subject".data, "keywords".data,
    "format".data ]

def idLit : List Char := "ID".data

def typeLit : List Char := "Type".data

def pathLit : List Char := "Path".data

def lenLit : List Char := "len(".data

def trueLit : List Char := "true".data

def falseLit : List Char := "false".data

/-- Placeholder verbs emitted into the new message. -/
def pcS : List Char := "%s".data

def pcD : List Char := "%d".data

def pcT : List Char := "%t".data

def commaSp : List Char := ", ".data

def colonSp : List Char := ": ".data

/-- Literal ".logger.Info(" plus opening quote used by the reconstruction:
the source hard-codes the Info severity in both return statements. -/
def callMid : List Char := ".logger.Info(\"".data

def quoteCommaSp : List Char := "\", ".data

def quoteCloseParen : List Char := "\")".data

def closeParen : List Char := ")".data

/-- Format verb chosen for one value expression, mirroring the branch chain
of lines 41-68: the allow-list special case (every branch a string verb),
then length-accessor, numeric literal via replace-dots-then-isdigit, boolean
literal, and the string fallback. -/
def verbFor (v : List Char) : List Char :=
  if v ∈ allowList then
    if hasSub idLit v then pcS
    else if hasSub typeLit v then pcS
    else if hasSub pathLit v then pcS
    else if v ∈ innerNames then pcS
    else pcS
  else if hasSub lenLit v then pcD
  else if pyIsDigit v || pyIsDigit (v.filter (fun c => !(c == '.'))) then pcD
  else if v = trueLit ∨ v = falseLit then pcT
  else pcS

/-- Parse one line of the mapping body (lines 24-31): strip it, require a
colon and no leading comment marker, split on every colon, and when at least
two parts exist take the part before the first colon as key (whitespace then
quotes stripped) and the part between the first and second colons as value
(stripped, trailing commas removed, stripped again). -/
def lineField (rawLine : List Char) : Option (List Char × List Char) :=
  if (':') ∈ strip rawLine ∧ startsWithSlashes (strip rawLine) = false then
    if 2 ≤ (splitOn ':' (strip rawLine)).length then
      some (stripQuotes (strip ((splitOn ':' (strip rawLine)).headD [])),
            strip (rstripComma (strip (((splitOn ':' (strip rawLine)).tail).headD []))))
    else none
  else none

/-- Field pairs of a mapping body: the body split on newlines, each line fed
through lineField, in textual order. -/
def parseFields (body : List Char) : List (List Char × List Char) :=
  (splitOn '\n' body).filterMap lineField

/-- The message-building and argument-collecting loop of lines 40-68: per
field the message grows by comma-space key colon-space verb, and the value
joins the argument list, in every branch. -/
def buildLoop : List Char → List (List Char) → List (List Char × List Char) →
    List Char × List (List Char)
  | msg, args, [] => (msg, args)
  | msg, args, kv :: rest =>
    buildLoop (msg ++ commaSp ++ kv.1 ++ colonSp ++ verbFor kv.2)
      (args ++ [kv.2]) rest

/-- Receiver extraction of lines 73 and 75: the matched text split on dots,
first part. -/
def recvOf (m : CallMatch) : List Char :=
  (splitOn '.' m.matched).headD []

/-- Python comma-space join of the argument list. -/
def joinComma : List (List Char) → List Char
  | [] => []
  | [a] => a
  | a :: b :: rest => a ++ commaSp ++ joinComma (b :: rest)

/-- The replacement function replace_logger_call (lines 17-75): zero parsed
fields return the matched text verbatim; otherwise the rebuilt call, always
with the Info severity, with the argument list appended when nonempty. -/
def replaceCall (m : CallMatch) : List Char :=
  if (parseFields m.body).isEmpty then m.matched
  else if (buildLoop m.message [] (parseFields m.body)).2.isEmpty then
    recvOf m ++ callMid ++ (buildLoop m.message [] (parseFields m.body)).1 ++
      quoteCloseParen
  else
    recvOf m ++ callMid ++ (buildLoop m.message [] (parseFields m.body)).1 ++
      quoteCommaSp ++
      joinComma (buildLoop m.message [] (parseFields m.body)).2 ++ closeParen

/-- One re.sub pass for one severity: scan left to right, at each position
try the pattern; on a match substitute replaceCall and continue after the
matched span, otherwise keep the character and advance.  Fuel equal to the
text length suffices because every step consumes at least one character. -/
def substAux (sev : List Char) : Nat → List Char → List Char
  | 0, s => s
  | _ + 1, [] => []
  | fuel + 1, c :: rest =>
    match tryMatch sev (c :: rest) with
    | some (m, r) => replaceCall m ++ substAux sev fuel r
    | none => c :: substAux sev fuel rest

def substSev (sev : List Char) (s : List Char) : List Char :=
  substAux sev s.length s

/-- The four-stage document pass of fix_logger_calls (lines 78-90): Info,
Debug, Warning, Error substitutions composed in order. -/
def fixAll (content : List Char) : List Char :=
  substSev sevError (substSev sevWarning (substSev sevDebug
    (substSev sevInfo content)))

/-- Placeholder text appended to the message for one field. -/
def placeholderFor (kv : List Char × List Char) : List Char :=
  commaSp ++ kv.1 ++ colonSp ++ verbFor kv.2

/-- Concatenation of a list of character lists. -/
def catAll : List (List Char) → List Char
  | [] => []
  | a :: r => a ++ catAll r

/-- Comparison definition for the refinement claim: the verb chain with the
allow-list special case of line 41 deleted, keeping the remaining precedence
chain exactly as the code states it (length-accessor, then the
replace-dots-then-isdigit numeric test, then boolean literal, then the
string fallback).  The numeric test's own fidelity to the spec wording is a
separate claim, settled elsewhere. -/
def plainVerbFor (v : List Char) : List Char :=
  if hasSub lenLit v then pcD
  else if pyIsDigit v || pyIsDigit (v.filter (fun c => !(c == '.'))) then pcD
  else if v = trueLit ∨ v = falseLit then pcT
  else pcS

/-- Per-field observable output of the source's verb inference: the text
appended to the message and the argument appended to the list. -/
def stepCode (kv : List Char × List Char) : List Char × List Char :=
  (commaSp ++ kv.1 ++ colonSp ++ verbFor kv.2, kv.2)

/-- Per-field observable output of the allow-list-free chain. -/
def stepPlain (kv : List Char × List Char) : List Char × List Char :=
  (commaSp ++ kv.1 ++ colonSp ++ plainVerbFor kv.2, kv.2)

/-- The spec's logger.Error example document. -/
def exErrorDoc : List Char :=
  "o.logger.Error(\"bad request\", map[string]interface\x7b\x7d\x7b \"count\": 42 \x7d)".data

/-- What the four-stage pass actually produces on the Error example: the
severity is downgraded to Info and the original closing parenthesis
survives after the rebuilt call. -/
def outErrorDoc : List Char :=
  "o.logger.Info(\"bad request, count: %d\", 42))".data

/-- The spec's single-line three-field Info example document. -/
def exSingleLineDoc : List Char :=
  "o.logger.Info(\"saved file\", map[string]interface\x7b\x7d\x7b \"fileID\": fileID, \"size\": len(data), \"ok\": true, \x7d)".data

/-- The output the spec claims for the single-line example. -/
def claimedSingleLineOut : List Char :=
  "o.logger.Info(\"saved file, fileID: %s, size: %d, ok: %t\", fileID, len(data), true)".data

/-- The output the code actually produces for the single-line example: the
whole line is one field line, split at every colon, so a single field with
key fileID remains whose value is the text between the first and second
colons. -/
def actualSingleLineOut : List Char :=
  "o.logger.Info(\"saved file, fileID: %s\", fileID, \"size\"))".data

/-- A call-site whose mapping body holds a nested brace pair. -/
def exNestedDoc : List Char :=
  "a.logger.Info(\"m\", map[string]interface\x7b\x7d\x7b \"k\": T\x7bX: 1\x7d \x7d)".data

/-- What the pass produces on the nested-brace document: the pattern matches
up to the first closing brace, that truncated span is rewritten, and the
tail of the original call-site remains. -/
def outNestedDoc : List Char :=
  "a.logger.Info(\"m, k: %s\", T\x7bX) \x7d)".data

/-- Document on which the four-stage pass is not idempotent: the first pass
rewrites the outer call (truncated at the closing brace inside the inner
message), and the rebuilt text together with the untouched tail forms a new
matchable call-site that only a second pass rewrites. -/
def exIdemDoc : List Char :=
  "a.logger.Info(\"m\", map[string]interface\x7b\x7d\x7b \"k\": b.logger.Info(\"x \x7d\", map[string]interface\x7b\x7d\x7b \"j\": v \x7d)".data

/-- A plain one-call document on which the pass is idempotent. -/
def exIdemOkDoc : List Char :=
  "o.logger.Debug(\"pos\", map[string]interface\x7b\x7d\x7b \"n\": 7 \x7d)".data

/-- Field line whose value text holds a colon. -/
def cexLine : List Char := "\"url\": http://x".data

def keyUrlQuoted : List Char := "\"url\"".data

def keyUrl : List Char := "url".data

def valAfterUrl : List Char := " http://x".data

def valHttp : List Char := "http".data

def valHttpFull : List Char := "http://x".data

/-- Value with two decimal points. -/
def dotsVal : List Char := "1.2.3".data

/-- Concrete match used to witness the order-preservation theorem. -/
def wBody7 : List Char := " \"a\": len(xs),\n \"ok\": true ".data

def wMatch7 : CallMatch :=
  ⟨"w.logger.Info(\"up\", map[string]interface\x7b\x7d\x7b \"a\": len(xs),\n \"ok\": true \x7d".data,
   "up".data, wBody7⟩

/-- Concrete match whose body holds only a blank line, a comment line with a
colon, and whitespace. -/
def wBody8 : List Char := "\n // note: retry\n   \n".data

def wMatch8 : CallMatch :=
  ⟨"q.logger.Debug(\"retrying\", map[string]interface\x7b\x7d\x7b\n // note: retry\n   \n\x7d".data,
   "retrying".data, wBody8⟩

/-- Concrete match whose single field line has an empty value. -/
def wBody10 : List Char := " \"key\": ".data

def wKey10 : List Char := "\"key\"".data

def wMatch10 : CallMatch :=
  ⟨"p.logger.Info(\"save\", map[string]interface\x7b\x7d\x7b \"key\": \x7d".data,
   "save".data, wBody10⟩

/-- Splitting a text without the separator yields the whole text alone. -/
theorem splitOnAux_no_sep (sep : Char) (s : List Char) (h : sep ∉ s) :
    splitOnAux sep s = (s, []) := by
  induction s with
  | nil => rfl
  | cons c rest ih =>
    have hc : ¬ c = sep := fun hh => h (hh ▸ List.mem_cons_self c rest)
    simp only [splitOnAux, if_neg hc,
      ih (fun hm => h (List.mem_cons_of_mem _ hm))]

theorem splitOn_no_sep (sep : Char) (s : List Char) (h : sep ∉ s) :
    splitOn sep s = [s] := by
  simp [splitOn, splitOnAux_no_sep sep s h]

/-- Splitting around the first separator occurrence: the part before it is
the head chunk and the rest splits recursively. -/
theorem splitOnAux_append (sep : Char) (k v : List Char) (h : sep ∉ k) :
    splitOnAux sep (k ++ sep :: v) =
      (k, (splitOnAux sep v).1 :: (splitOnAux sep v).2) := by
  induction k with
  | nil => simp [splitOnAux]
  | cons c k' ih =>
    have hc : ¬ c = sep := fun hh => h (hh ▸ List.mem_cons_self c k')
    simp only [List.cons_append, splitOnAux, if_neg hc, List.append_eq,
      ih (fun hm => h (List.mem_cons_of_mem _ hm))]

/-- The head chunk of a split is the run of non-separator characters. -/
theorem splitOnAux_fst (sep : Char) (v : List Char) :
    (splitOnAux sep v).1 = v.takeWhile (fun c => !(c == sep)) := by
  induction v with
  | nil => rfl
  | cons c rest ih =>
    by_cases hc : c = sep
    · subst hc; simp [splitOnAux]
    · simp [splitOnAux, if_neg hc, List.takeWhile_cons, hc, ih]

/-- A nonempty all-digit text keeps every character under the dot filter. -/
theorem filterDot_of_digits (v : List Char) (h : v.all Char.isDigit = true) :
    v.filter (fun c => !(c == '.')) = v := by
  induction v with
  | nil => rfl
  | cons c cs ih =>
    rw [List.all_cons, Bool.and_eq_true] at h
    have hc : (c == '.') = false := by
      cases hcc : c == '.' with
      | false => rfl
      | true =>
        have hceq : c = '.' := eq_of_beq hcc
        rw [hceq] at h
        exact absurd h.1 (by decide)
    simp [List.filter_cons, hc, ih h.2]

/-- Closed form of the message-building loop: the message grows by the
placeholders in field order and the argument list by the values in the same
order. -/
theorem buildLoop_spec (l : List (List Char × List Char)) :
    ∀ msg args, buildLoop msg args l =
      (msg ++ catAll (l.map placeholderFor), args ++ l.map Prod.snd) := by
  induction l with
  | nil => intro msg args; simp [buildLoop, catAll]
  | cons kv rest ih =>
    intro msg args
    simp only [buildLoop, List.map_cons, catAll, ih, placeholderFor,
      List.append_assoc, List.singleton_append, List.cons_append,
      List.nil_append]

/-- Claim C1: the claim says a matched logger.Error call is rewritten to a
logger.Error call, never to a different level.  Evaluating the four-stage
pass at the spec's own Error example shows the code rewriting the call to
logger.Info: the reconstruction hard-codes the Info severity, so the output
document contains no logger.Error call at all. -/
theorem severity_downgraded_eval :
    fixAll exErrorDoc = outErrorDoc ∧
      hasSub (dotLoggerDot ++ sevError) (fixAll exErrorDoc) = false := by
  constructor
  · decide
  · decide

/-- Claim C2 counterexample: on the single-line three-field example the pass
does not produce the output the claim states. -/
theorem single_line_cex : fixAll exSingleLineDoc ≠ claimedSingleLineOut := by
  decide

/-- Claim C2 (amended): on the single-line example the whole line is one
field line, split at every colon, so the pass emits a single fileID field
whose value is the text between the first and second colons, and the
original closing parenthesis survives after the rebuilt call. -/
theorem single_line_eval : fixAll exSingleLineDoc = actualSingleLineOut := by
  decide

/-- Claim C4 counterexample: a call-site whose mapping body holds a nested
brace pair is not left byte-for-byte unchanged by the pass. -/
theorem nested_brace_cex : fixAll exNestedDoc ≠ exNestedDoc := by
  decide

/-- Claim C4 (amended): on a body with a nested brace pair the pattern still
matches, truncated at the first closing brace, and the truncated span is
rewritten while the tail of the original call-site stays in place. -/
theorem nested_brace_eval : fixAll exNestedDoc = outNestedDoc := by
  decide

/-- Claim C5 counterexample: the value 1.2.3 has two decimal points, yet the
numeric test deletes every dot before isdigit, so the integer verb is
chosen, not the string verb the claim states. -/
theorem multi_dot_cex : verbFor dotsVal = pcD ∧ pcD ≠ pcS := by
  constructor
  · decide
  · decide

/-- Claim C6 counterexample: the four-stage pass is not idempotent; on this
document a second application changes the text again, because the first
rewrite brings a following mapping literal into match position. -/
theorem twice_differs_cex : fixAll (fixAll exIdemDoc) ≠ fixAll exIdemDoc := by
  decide

/-- Claim C6 (amended): a call already in positional-format form does not
match the literal-mapping pattern, so on a plain one-call document the pass
is idempotent; it is not idempotent for every document, as the
counterexample shows. -/
theorem idem_on_plain_example :
    fixAll (fixAll exIdemOkDoc) = fixAll exIdemOkDoc := by
  decide

/-- Claim C3 counterexample: on a field line whose value text holds a colon
the parser keeps only the text between the first and second colons, not all
text after the first colon as the claim states. -/
theorem value_truncated_cex :
    lineField cexLine = some (keyUrl, valHttp) ∧
      ¬ lineField cexLine = some (keyUrl, valHttpFull) := by
  constructor
  · decide
  · decide

/-- Shared helper: on a stripped line k colon v with no colon in k, the
parser emits the key cleaned from k and the value cleaned from the chunk of
v before its first colon. -/
theorem lineField_eq_of_split (l k v : List Char)
    (hs : strip l = k ++ ':' :: v) (hk : (':') ∉ k)
    (hc : startsWithSlashes (strip l) = false) :
    lineField l = some (stripQuotes (strip k),
      strip (rstripComma (strip ((splitOnAux ':' v).1)))) := by
  have hmem : (':') ∈ strip l := by
    rw [hs]
    exact List.mem_append_right _ (List.mem_cons_self _ _)
  have hsp : splitOn ':' (strip l) =
      k :: (splitOnAux ':' v).1 :: (splitOnAux ':' v).2 := by
    unfold splitOn
    rw [hs, splitOnAux_append ':' k v hk]
  unfold lineField
  rw [if_pos (⟨hmem, hc⟩ : (':') ∈ strip l ∧ startsWithSlashes (strip l) = false),
    hsp]
  have hlen : 2 ≤ (k :: (splitOnAux ':' v).1 :: (splitOnAux ':' v).2).length := by
    simp only [List.length_cons]
    omega
  rw [if_pos hlen]
  simp [List.headD_cons, List.tail_cons]

/-- Claim C3 (amended): a field line is split on every colon and the value
is the text strictly between the first and second colons (to the end of the
line when there is no second colon), stripped, trailing commas removed,
stripped again; the key is the text before the first colon, stripped and
with surrounding quotes removed. -/
theorem lineField_value_between (l k v : List Char)
    (hs : strip l = k ++ ':' :: v) (hk : (':') ∉ k)
    (hc : startsWithSlashes (strip l) = false) :
    lineField l = some (stripQuotes (strip k),
      strip (rstripComma (strip (v.takeWhile (fun c => !(c == ':')))))) := by
  rw [lineField_eq_of_split l k v hs hk hc, splitOnAux_fst]

theorem lineField_value_witness :
    lineField cexLine = some (stripQuotes (strip keyUrlQuoted),
      strip (rstripComma (strip (valAfterUrl.takeWhile (fun c => !(c == ':')))))) :=
  lineField_value_between cexLine keyUrlQuoted valAfterUrl (by decide)
    (by decide) (by decide)

/-- Claim C5 (amended): outside the allow-list and length-accessor cases the
integer verb is chosen exactly when deleting every decimal point from the
value leaves a nonempty all-digit text, so a value with several decimal
points also receives the integer verb. -/
theorem numeric_rule (v : List Char) (h1 : v ∉ allowList)
    (h2 : hasSub lenLit v = false) :
    (verbFor v = pcD ↔
      pyIsDigit (v.filter (fun c => !(c == '.'))) = true) := by
  unfold verbFor
  rw [if_neg h1]
  rw [if_neg (show ¬ hasSub lenLit v = true by simp [h2])]
  by_cases hd : (pyIsDigit v || pyIsDigit (v.filter (fun c => !(c == '.')))) = true
  · rw [if_pos hd]
    constructor
    · intro _
      rcases Bool.or_eq_true_iff.mp hd with hv | hv
      · unfold pyIsDigit at hv
        have hall := (Bool.and_eq_true_iff.mp hv).2
        rw [filterDot_of_digits v hall]
        unfold pyIsDigit
        exact hv
      · exact hv
    · intro _
      rfl
  · rw [if_neg hd]
    constructor
    · intro hEq
      exfalso
      by_cases hb : (v = trueLit ∨ v = falseLit)
      · rw [if_pos hb] at hEq
        exact absurd hEq (by decide)
      · rw [if_neg hb] at hEq
        exact absurd hEq (by decide)
    · intro hf
      exact absurd (Bool.or_eq_true_iff.mpr (Or.inr hf)) hd

theorem numeric_rule_witness : verbFor dotsVal = pcD :=
  (numeric_rule dotsVal (by decide) (by decide)).mpr (by decide)

/-- Claim C7: for a match whose body parses to a nonempty field list, the
rebuilt call is the receiver, the hard-coded Info opening, the original
message followed by the per-field placeholders in textual field order, and
the field values comma-joined in the same order, so the i-th placeholder
corresponds to the i-th argument. -/
theorem order_preserved (m : CallMatch) (l : List (List Char × List Char))
    (hp : parseFields m.body = l) (hne : l ≠ []) :
    replaceCall m = recvOf m ++ callMid ++ m.message ++
      catAll (l.map placeholderFor) ++ quoteCommaSp ++
      joinComma (l.map Prod.snd) ++ closeParen := by
  obtain ⟨kv, rest, rfl⟩ : ∃ kv rest, l = kv :: rest := by
    cases l with
    | nil => exact absurd rfl hne
    | cons a b => exact ⟨a, b, rfl⟩
  unfold replaceCall
  rw [hp, buildLoop_spec]
  simp [List.append_assoc]

theorem order_preserved_witness :
    replaceCall wMatch7 = recvOf wMatch7 ++ callMid ++ wMatch7.message ++
      catAll ((parseFields wMatch7.body).map placeholderFor) ++ quoteCommaSp ++
      joinComma ((parseFields wMatch7.body).map Prod.snd) ++ closeParen :=
  order_preserved wMatch7 (parseFields wMatch7.body) rfl (by decide)

/-- Claim C8: a match whose body lines each start with the comment marker or
lack a colon yields zero fields, and the replacement returns the matched
text verbatim. -/
theorem zero_fields_verbatim (m : CallMatch)
    (h : ∀ l ∈ splitOn '\n' m.body,
      startsWithSlashes (strip l) = true ∨ (':') ∉ strip l) :
    replaceCall m = m.matched := by
  have hp : parseFields m.body = [] := by
    unfold parseFields
    rw [List.filterMap_eq_nil_iff]
    intro a ha
    rcases h a ha with hc | hc
    · unfold lineField
      rw [if_neg]
      rintro ⟨_, h2⟩
      rw [hc] at h2
      exact absurd h2 (by decide)
    · unfold lineField
      rw [if_neg]
      rintro ⟨h1, _⟩
      exact hc h1
  unfold replaceCall
  rw [hp]
  simp

theorem zero_fields_witness : replaceCall wMatch8 = wMatch8.matched :=
  zero_fields_verbatim wMatch8 (by decide)

/-- Claim C9: the verb inference with the allow-list special case is
observationally equal, per field, to the chain with that special case
deleted: same placeholder text and same argument for every key and value,
so the allow-list branching has no observable effect. -/
theorem allowlist_no_effect :
    ∀ kv : List Char × List Char, stepCode kv = stepPlain kv := by
  intro kv
  unfold stepCode stepPlain
  have hv : verbFor kv.2 = plainVerbFor kv.2 := by
    by_cases h : kv.2 ∈ allowList
    · have hp : plainVerbFor kv.2 = pcS := by
        have hall : allowList.all (fun w => decide (plainVerbFor w = pcS)) = true := by
          decide
        exact of_decide_eq_true (List.all_eq_true.mp hall kv.2 h)
      have hcV : verbFor kv.2 = pcS := by
        unfold verbFor
        rw [if_pos h]
        simp only [ite_self]
      rw [hcV, hp]
    · unfold verbFor plainVerbFor
      rw [if_neg h]
  rw [hv]

/-- Claim C10: a field line whose text after the separator cleans to the
empty string still emits a field: the message gains the key with a string
verb and the argument list gains an empty entry, leaving a dangling empty
argument position before the closing parenthesis. -/
theorem empty_value_dangling (m : CallMatch) (k v : List Char)
    (hb : ('\n') ∉ m.body) (hs : strip m.body = k ++ ':' :: v)
    (hk : (':') ∉ k) (hv : (':') ∉ v)
    (hc : startsWithSlashes (strip m.body) = false)
    (hval : strip (rstripComma (strip v)) = []) :
    replaceCall m = recvOf m ++ callMid ++ m.message ++ commaSp ++
      stripQuotes (strip k) ++ colonSp ++ pcS ++ quoteCommaSp ++ closeParen := by
  have haux : (splitOnAux ':' v).1 = v := by
    rw [splitOnAux_no_sep ':' v hv]
  have hlf : lineField m.body = some (stripQuotes (strip k), []) := by
    rw [lineField_eq_of_split m.body k v hs hk hc, haux, hval]
  have hlines : splitOn '\n' m.body = [m.body] := splitOn_no_sep '\n' m.body hb
  have hp : parseFields m.body = [(stripQuotes (strip k), [])] := by
    unfold parseFields
    rw [hlines]
    simp [List.filterMap_cons, hlf]
  unfold replaceCall
  rw [hp, buildLoop_spec]
  have hverb : verbFor ([] : List Char) = pcS := by decide
  simp [catAll, placeholderFor, hverb, joinComma, List.append_assoc]

theorem empty_value_witness :
    replaceCall wMatch10 = recvOf wMatch10 ++ callMid ++ wMatch10.message ++
      commaSp ++ stripQuotes (strip wKey10) ++ colonSp ++ pcS ++
      quoteCommaSp ++ closeParen :=
  empty_value_dangling wMatch10 wKey10 [] (by decide) (by decide) (by decide)
    (by decide) (by decide) (by decide)

end FixLogger
